import Mathlib

/-!
Verification development for the two-person chat application: the real-time
room message fan-out and presence layer, its client, and the persistence
schema. Client-side definitions are translated from
frontend/app/room/[id]/page.tsx, frontend/app/components/MessageInput.tsx and
frontend/app/components/ChatBubble.tsx; the reaction-table definitions from
backend/supabase_schema.sql. The backend delivery core (session registry,
room event bus, presence tracker, delivery coordinator) is not part of the
source tree, so those components are modelled from the specification text and
are marked as such in their doc comments.
-/

namespace CoupleChat

/-- Connection readiness states of a browser WebSocket, as compared against
WebSocket.OPEN by the client guards. -/
inductive ReadyState where
  | CONNECTING
  | OPEN
  | CLOSING
  | CLOSED
  deriving DecidableEq, Repr

/-- Payload of an inbound client frame: the data object of the tagged record
the client sends, one variant per event tag (page.tsx sendMessage, sendTyping,
addReaction). -/
inductive ClientData where
  | message (content : String) (type : String) (mention_bot : Bool)
  | typing (is_typing : Bool)
  | reaction (message_id : String) (reaction_type : String) (action : String)
  deriving DecidableEq, Repr

/-- A frame sent by the client on the WebSocket: a tagged record with exactly
the fields event and data (JSON.stringify of an object literal with those two
keys in page.tsx). -/
structure ClientFrame where
  event : String
  data : ClientData
  deriving DecidableEq, Repr

/-- Guard shared by the three client send callbacks: the WebSocket reference
must be non-null and its readyState must be WebSocket.OPEN
(page.tsx lines 224, 238, 248). -/
def wsReady (ws : Option ReadyState) : Bool :=
  match ws with
  | none => false
  | some s => s == ReadyState.OPEN

/-- Client sendMessage (page.tsx lines 223-234): when the socket is open,
sends a frame tagged message whose data carries the content, the literal
type text, and a mention_bot flag computed from the explicit argument or a
lowercase prefix check for the bot mention; otherwise returns without
sending. -/
def sendMessage (ws : Option ReadyState) (content : String) (mentionBot : Bool) :
    Option ClientFrame :=
  if wsReady ws then
    some { event := "message",
           data := ClientData.message content "text"
             (mentionBot || (content.toLower.startsWith "@bot")) }
  else none

/-- Client sendTyping (page.tsx lines 237-244): when the socket is open, sends
a frame tagged typing carrying the is_typing flag; otherwise returns without
sending. -/
def sendTyping (ws : Option ReadyState) (isTyping : Bool) : Option ClientFrame :=
  if wsReady ws then
    some { event := "typing", data := ClientData.typing isTyping }
  else none

/-- Client UI state touched by addReaction: the id of the message whose
reaction picker is currently shown, or none. -/
structure ReactionUIState where
  showReactions : Option String
  deriving DecidableEq, Repr

/-- Client addReaction (page.tsx lines 247-259): when the socket is open,
sends a frame tagged reaction with message id, reaction type, and the literal
action add, then closes the reaction picker; when the guard fails, it returns
before sending and before touching the picker state. -/
def addReaction (ws : Option ReadyState) (st : ReactionUIState)
    (messageId : String) (reactionType : String) :
    Option ClientFrame × ReactionUIState :=
  if wsReady ws then
    (some { event := "reaction",
            data := ClientData.reaction messageId reactionType "add" },
     { st with showReactions := none })
  else (none, st)

/-- A chat message as the client renders it (the Message interface of
page.tsx / ChatBubble.tsx); reactions is the per-type list of reacting user
ids. -/
structure Message where
  id : String
  room_id : Nat
  sender_id : String
  content : String
  message_type : String
  media_url : Option String
  view_once : Bool
  view_once_available : Bool
  reply_to_id : Option String
  reactions : List (String × List String)
  is_remembered : Bool
  created_at : String
  deriving DecidableEq, Repr

/-- Observable effects of a fired view-once click: the image is revealed, a
hide is scheduled after the given delay in milliseconds, and the server is
notified by a POST to the given path. -/
structure ViewOnceEffects where
  revealed : Bool
  hideAfterMs : Nat
  notifyPath : String
  deriving DecidableEq, Repr

/-- Client handleViewOnce (ChatBubble.tsx lines 67-83): a no-op (none) unless
the message is view-once, still available, and not already revealed; when it
fires it reveals the image, schedules the hide 5000 ms later, and POSTs to
/api/chat/view-once/ followed by the message id. -/
def handleViewOnce (m : Message) (viewOnceRevealed : Bool) :
    Option ViewOnceEffects :=
  if !m.view_once || !m.view_once_available || viewOnceRevealed then none
  else
    some { revealed := true,
           hideAfterMs := 5000,
           notifyPath := "/api/chat/view-once/" ++ m.id }

/-- Concrete rendered message used to instantiate the view-once theorem. -/
def demoMsg : Message :=
  { id := "m1", room_id := 1, sender_id := "u1", content := "",
    message_type := "image", media_url := some "pic", view_once := true,
    view_once_available := true, reply_to_id := none, reactions := [],
    is_remembered := false, created_at := "t0" }

/-- A row of the reactions table (supabase_schema.sql lines 125-134): one
reaction of one user on one message; UNIQUE(message_id, user_id,
reaction_type) makes the whole row the key. -/
structure ReactionRow where
  message_id : String
  user_id : String
  reaction_type : String
  deriving DecidableEq, Repr

/-- Rows of the reactions table belonging to one message. -/
def messageRows (tbl : List ReactionRow) (mid : String) : List ReactionRow :=
  tbl.filter (fun r => r.message_id == mid)

/-- Modelled from the spec: the recomputed full reaction map for one message
that setReaction returns and the reaction events carry (the backend
setReaction path is absent from the source tree) — for each reaction type,
the user ids of the rows of that message carrying that type. This is the
aggregation sync_message_reactions (supabase_schema.sql lines 264-300)
attempts; the staged SQL cannot perform it, see
syncMessageReactionsStaged. -/
def reactionMap (tbl : List ReactionRow) (mid : String) : String → List String :=
  fun t =>
    ((messageRows tbl mid).filter (fun r => r.reaction_type == t)).map
      (fun r => r.user_id)

/-- Errors PostgreSQL raises in the staged schema model: the
nested-aggregate error (aggregate function calls cannot be nested) and the
unique-constraint violation. -/
inductive SqlError where
  | nestedAggregate
  | uniqueViolation
  deriving DecidableEq, Repr

/-- Execution of sync_message_reactions as staged (supabase_schema.sql lines
264-300): its single query nests jsonb_object_agg over array_agg at one
query level, which PostgreSQL rejects with the nested-aggregate error, so
every execution raises instead of computing a reaction map. -/
def syncMessageReactionsStaged (_tbl : List ReactionRow) (_mid : String) :
    Except SqlError (String → List String) :=
  Except.error SqlError.nestedAggregate

/-- An INSERT into reactions as staged: a duplicate key fails the
UNIQUE(message_id, user_id, reaction_type) constraint (supabase_schema.sql
line 133) first; a fresh row is admitted, but trigger_sync_reactions (AFTER
INSERT FOR EACH ROW, lines 297-300) then executes sync_message_reactions,
whose nested-aggregate error aborts the statement, so no insert ever changes
the table. -/
def insertReactionStaged (tbl : List ReactionRow) (r : ReactionRow) :
    Except SqlError (List ReactionRow) :=
  if r ∈ tbl then Except.error SqlError.uniqueViolation
  else
    match syncMessageReactionsStaged (tbl ++ [r]) r.message_id with
    | Except.error e => Except.error e
    | Except.ok _ => Except.ok (tbl ++ [r])

/-- Modelled from the spec: insertion into the reactions store as the spec
intends it to behave under the uniqueness enforced upstream
(UNIQUE(message_id, user_id, reaction_type)) and without the staged trigger
defect — a row whose key already exists leaves the table unchanged, a fresh
row is appended. -/
def insertReaction (tbl : List ReactionRow) (r : ReactionRow) :
    List ReactionRow :=
  if r ∈ tbl then tbl else tbl ++ [r]

/-- Client application of a reaction_added or reaction_removed event
(page.tsx lines 183-189): map over the message list, replacing the reactions
field of the message whose id equals the event message_id and returning every
other message untouched. -/
def applyReactionEvent (msgs : List Message) (mid : String)
    (newReactions : List (String × List String)) : List Message :=
  msgs.map (fun m =>
    if m.id == mid then { m with reactions := newReactions } else m)

/-- Inserting a row whose key is already present leaves the reactions table
unchanged: the UNIQUE constraint of supabase_schema.sql line 133. -/
theorem insertReaction_of_mem (tbl : List ReactionRow) (r : ReactionRow)
    (h : r ∈ tbl) : insertReaction tbl r = tbl := by
  simp [insertReaction, h]

/-- The inserted row is present after insertion. -/
theorem mem_insertReaction (tbl : List ReactionRow) (r : ReactionRow) :
    r ∈ insertReaction tbl r := by
  by_cases hm : r ∈ tbl
  · simp [insertReaction, hm]
  · simp [insertReaction, hm]

/-- C4: every frame the client sends on the WebSocket is a tagged record with
exactly the fields event and data, whose tag is one of message, typing,
reaction, and whose data is the matching variant built from the corresponding
handler parameters (content, type, mention_bot; is_typing; message_id,
reaction_type, action). -/
theorem client_wire_contract :
    (∀ ws c mb f, sendMessage ws c mb = some f →
      f.event = "message" ∧
      f.data = ClientData.message c "text"
        (mb || (c.toLower.startsWith "@bot"))) ∧
    (∀ ws t f, sendTyping ws t = some f →
      f.event = "typing" ∧ f.data = ClientData.typing t) ∧
    (∀ ws st mid rt f st2, addReaction ws st mid rt = (some f, st2) →
      f.event = "reaction" ∧ f.data = ClientData.reaction mid rt "add") := by
  refine ⟨?_, ?_, ?_⟩
  · intro ws c mb f h
    unfold sendMessage at h
    split at h
    · cases h; exact ⟨rfl, rfl⟩
    · cases h
  · intro ws t f h
    unfold sendTyping at h
    split at h
    · cases h; exact ⟨rfl, rfl⟩
    · cases h
  · intro ws st mid rt f st2 h
    unfold addReaction at h
    split at h
    · cases h; exact ⟨rfl, rfl⟩
    · cases h

/-- Witness for C4: the typing frame produced over an open socket has the
typing tag and carries the is_typing flag. -/
theorem client_wire_contract_witness :
    ({ event := "typing", data := ClientData.typing true } : ClientFrame).event
        = "typing" ∧
    ({ event := "typing", data := ClientData.typing true } : ClientFrame).data
        = ClientData.typing true :=
  client_wire_contract.2.1 (some ReadyState.OPEN) true
    { event := "typing", data := ClientData.typing true } rfl

/-- C9: when the WebSocket reference is null or its readyState is not OPEN,
each of the three client send operations returns immediately: no frame is
sent and the client state (the reaction picker for addReaction) is left
unchanged. -/
theorem send_guard_no_socket (ws : Option ReadyState)
    (h : ws = none ∨ ∃ s, ws = some s ∧ s ≠ ReadyState.OPEN) :
    (∀ c mb, sendMessage ws c mb = none) ∧
    (∀ t, sendTyping ws t = none) ∧
    (∀ st mid rt, addReaction ws st mid rt = (none, st)) := by
  have hw : wsReady ws = false := by
    rcases h with h | ⟨s, hs, hne⟩
    · subst h; rfl
    · subst hs; cases s <;> simp_all [wsReady]
  refine ⟨?_, ?_, ?_⟩
  · intro c mb; simp [sendMessage, hw]
  · intro t; simp [sendTyping, hw]
  · intro st mid rt; simp [addReaction, hw]

/-- Witness for C9: over a CLOSED socket none of the three operations emits a
frame, and the reaction picker state survives addReaction untouched. -/
theorem send_guard_no_socket_witness :
    sendMessage (some ReadyState.CLOSED) "hi" false = none ∧
    sendTyping (some ReadyState.CLOSED) true = none ∧
    addReaction (some ReadyState.CLOSED) { showReactions := some "m1" }
        "m1" "heart" = (none, { showReactions := some "m1" }) := by
  have h := send_guard_no_socket (some ReadyState.CLOSED)
    (Or.inr ⟨ReadyState.CLOSED, rfl, by decide⟩)
  exact ⟨h.1 "hi" false, h.2.1 true,
    h.2.2 { showReactions := some "m1" } "m1" "heart"⟩

/-- C10: clicking a view-once image is a no-op unless the message has
view_once true, view_once_available true, and it has not already been
revealed; when it fires, the image is revealed, a hide is scheduled after
5000 ms, and the server is notified via POST /api/chat/view-once/ followed by
the message id. -/
theorem view_once_click (m : Message) (r : Bool) :
    (handleViewOnce m r = none ↔
      ¬(m.view_once = true ∧ m.view_once_available = true ∧ r = false)) ∧
    (m.view_once = true → m.view_once_available = true → r = false →
      handleViewOnce m r =
        some { revealed := true, hideAfterMs := 5000,
               notifyPath := "/api/chat/view-once/" ++ m.id }) := by
  cases h1 : m.view_once <;> cases h2 : m.view_once_available <;> cases r <;>
    simp [handleViewOnce, h1, h2]

/-- Witness for C10: on an unviewed available view-once image, the click
reveals it, schedules the 5-second hide, and notifies the server for message
m1. -/
theorem view_once_click_witness :
    handleViewOnce demoMsg false =
      some { revealed := true, hideAfterMs := 5000,
             notifyPath := "/api/chat/view-once/m1" } := by
  have h := (view_once_click demoMsg false).2 rfl rfl rfl
  simpa using h

/-- Concrete reaction row used to evaluate the staged reaction code at its
failing input. -/
def rowHeartA : ReactionRow :=
  { message_id := "m1", user_id := "A", reaction_type := "heart" }

/-- The filter selecting the rows of one message is idempotent, so the
intended map is a function of the full row set of the message alone. -/
theorem messageRows_idem (tbl : List ReactionRow) (mid : String) :
    messageRows (messageRows tbl mid) mid = messageRows tbl mid := by
  unfold messageRows
  rw [List.filter_filter]
  simp

/-- C5 (code bug): the staged sync_message_reactions raises the
nested-aggregate error on every execution — in particular at the failing
input, the trigger firing for the insert of the (m1, A, heart) row — so the
staged schema never computes the reaction map the claim describes. The
intended aggregation modelled from the spec depends only on the full row set
of the affected message (never a delta), and on receipt the client replaces
the reactions field of exactly the message whose id matches the event
message_id, leaving every other message unchanged. -/
theorem reaction_event_full_map :
    syncMessageReactionsStaged [rowHeartA] "m1" =
      Except.error SqlError.nestedAggregate ∧
    (∀ tbl mid, syncMessageReactionsStaged tbl mid =
      Except.error SqlError.nestedAggregate) ∧
    (∀ tbl mid, reactionMap tbl mid = reactionMap (messageRows tbl mid) mid) ∧
    (∀ msgs mid rs,
      (applyReactionEvent msgs mid rs).length = msgs.length ∧
      ∀ i : Nat, (applyReactionEvent msgs mid rs)[i]? =
        (msgs[i]?).map (fun m =>
          if m.id == mid then { m with reactions := rs } else m)) := by
  refine ⟨rfl, fun tbl mid => rfl, ?_, ?_⟩
  · intro tbl mid
    funext t
    unfold reactionMap
    rw [messageRows_idem]
  · intro msgs mid rs
    constructor
    · simp [applyReactionEvent]
    · intro i
      simp [applyReactionEvent, List.getElem?_map]

/-- C8 (code bug): as staged, the first add of the (m1, A, heart) reaction
into an empty table aborts with the nested-aggregate error of
trigger_sync_reactions, a duplicate add aborts with the unique violation,
and in general every insert into reactions errors, so no add ever changes
the table; under the uniqueness behavior the spec intends, adding the same
(message, user, type) reaction twice yields the same table and the same
recomputed reaction map for every message as adding it once. -/
theorem reaction_add_idempotent :
    insertReactionStaged [] rowHeartA =
      Except.error SqlError.nestedAggregate ∧
    insertReactionStaged [rowHeartA] rowHeartA =
      Except.error SqlError.uniqueViolation ∧
    (∀ tbl (r : ReactionRow), ∃ e,
      insertReactionStaged tbl r = Except.error e) ∧
    (∀ tbl (r : ReactionRow),
      insertReaction (insertReaction tbl r) r = insertReaction tbl r ∧
      ∀ mid, reactionMap (insertReaction (insertReaction tbl r) r) mid =
        reactionMap (insertReaction tbl r) mid) := by
  refine ⟨rfl, by simp [insertReactionStaged], ?_, ?_⟩
  · intro tbl r
    unfold insertReactionStaged
    split
    · exact ⟨SqlError.uniqueViolation, rfl⟩
    · exact ⟨SqlError.nestedAggregate, rfl⟩
  · intro tbl r
    have h2 : insertReaction (insertReaction tbl r) r = insertReaction tbl r :=
      insertReaction_of_mem _ r (mem_insertReaction tbl r)
    exact ⟨h2, fun mid => by rw [h2]⟩

/-- Result of the client handleChange: the typing signal emitted immediately
and the time at which a deferred typing-false signal is scheduled, if any. -/
structure ChangeEffect where
  emitTyping : Bool
  stopScheduledAt : Option Nat
  deriving DecidableEq, Repr

/-- Client handleChange (MessageInput.tsx lines 34-51): any pending
typing-false timer is cleared first, so the prior pending timer (the first
argument) never survives the call; a non-empty input emits typing true and
schedules typing false 2000 ms later; an empty input emits typing false with
nothing scheduled. -/
def handleChange (pendingStop : Option Nat) (value : String) (now : Nat) :
    ChangeEffect :=
  if value.length > 0 then
    { emitTyping := true, stopScheduledAt := some (now + 2000) }
  else
    { emitTyping := false, stopScheduledAt := none }

/-- One entry of a room Typing Set. Modelled from the spec: the Presence
Tracker of the backend delivery core (ws/connection_manager.py, absent from
the source tree) keeps, per room, the users currently typing with a
last-update timestamp per member. -/
structure TypingEntry where
  user : String
  lastUpdate : Nat
  deriving DecidableEq, Repr

/-- Inactivity window of the Typing Set in milliseconds. Modelled from the
spec: entries expire after 2 seconds, matching the debounce the client
observes. -/
def typingWindowMs : Nat := 2000

/-- Modelled from the spec: the background sweep of the Presence Tracker
(backend code absent from the source tree) expires Typing Set entries older
than the inactivity window; the resulting typing_status event lists the users
of the surviving entries. -/
def sweepTyping (entries : List TypingEntry) (now : Nat) : List TypingEntry :=
  entries.filter (fun e => now - e.lastUpdate ≤ typingWindowMs)

/-- States of the session state machine: Connecting, Live, Closed, with
Closed terminal. Modelled from the spec. -/
inductive SessionState where
  | Connecting
  | Live
  | Closed
  deriving DecidableEq, Repr

/-- Modelled from the spec: one connection tracked by the Session Registry
(backend ws/connection_manager.py, absent from the source tree), keyed by
room, user and device. -/
structure Session where
  sid : Nat
  room : Nat
  user : String
  device : String
  state : SessionState
  deriving DecidableEq, Repr

/-- Key equality of a session against a (room, user, device) triple. -/
def sameKey (s : Session) (room : Nat) (user device : String) : Bool :=
  s.room == room && s.user == user && s.device == device

/-- Registry state: the tracked sessions and the next fresh session id.
Modelled from the spec. -/
structure Registry where
  sessions : List Session
  nextSid : Nat
  deriving DecidableEq, Repr

/-- Forced closure applied during register: a Live session with the same
(room, user, device) key transitions to Closed; any other session is left
alone. Modelled from the spec (DuplicateSessionReplaced eviction). -/
def closeIfSameKey (room : Nat) (user device : String) (s : Session) :
    Session :=
  if sameKey s room user device && s.state == SessionState.Live
  then { s with state := SessionState.Closed } else s

/-- Modelled from the spec: register forcibly closes any prior Live session
with the same (room, user, device) key and appends a fresh Live session for
the triple. -/
def register (reg : Registry) (room : Nat) (user device : String) :
    Registry :=
  { sessions := reg.sessions.map (closeIfSameKey room user device) ++
      [{ sid := reg.nextSid, room := room, user := user, device := device,
         state := SessionState.Live }],
    nextSid := reg.nextSid + 1 }

/-- Number of Live sessions of a (room, user, device) key in the registry. -/
def liveKeyCount (reg : Registry) (room : Nat) (user device : String) : Nat :=
  reg.sessions.countP
    (fun s => sameKey s room user device && s.state == SessionState.Live)

/-- After the forced closure of register, no session of the mapped prefix is
both key-matching and Live. -/
theorem closeIfSameKey_not_live (room : Nat) (user device : String)
    (s : Session) :
    (sameKey (closeIfSameKey room user device s) room user device &&
      (closeIfSameKey room user device s).state == SessionState.Live)
      = false := by
  unfold closeIfSameKey
  split
  · simp [sameKey]
  · rename_i h
    simpa using h

/-- Typer list the session of a given user displays on receiving a
typing_status event (page.tsx lines 180-182): the delivered typing_users with
the own user id filtered out. -/
def displayedTypers (typingUsers : List String) (userId : String) :
    List String :=
  typingUsers.filter (fun i => i != userId)

/-- Modelled from the spec: the fan-out of a typing_status event (backend
code absent from the source tree) hands the full current typer list to every
Live session of the room; echo suppression is a plain filter at delivery. -/
def broadcastTypingStatus (sessions : List Session) (room : Nat)
    (typers : List String) : List (Session × List String) :=
  (sessions.filter (fun s => s.room == room && s.state == SessionState.Live)).map
    (fun s => (s, typers))

/-- C3: registering a session for a (room, user, device) triple that already
has a Live session results in exactly one Live session for that key, and
every prior Live session with the key transitions to the terminal Closed
state. -/
theorem register_one_live (reg : Registry) (room : Nat)
    (user device : String) :
    liveKeyCount (register reg room user device) room user device = 1 ∧
    ∀ s ∈ reg.sessions, sameKey s room user device = true →
      s.state = SessionState.Live →
        { s with state := SessionState.Closed }
          ∈ (register reg room user device).sessions := by
  constructor
  · unfold liveKeyCount register
    rw [List.countP_append, List.countP_map]
    have hz : reg.sessions.countP
        ((fun s => sameKey s room user device &&
          s.state == SessionState.Live) ∘ closeIfSameKey room user device)
        = 0 := by
      rw [List.countP_eq_zero]
      intro s _
      simp only [Function.comp_apply]
      rw [closeIfSameKey_not_live]
      simp
    rw [hz]
    simp [sameKey]
  · intro s hs hk hl
    unfold register
    apply List.mem_append_left
    have : closeIfSameKey room user device s
        = { s with state := SessionState.Closed } := by
      unfold closeIfSameKey
      rw [if_pos]
      rw [hk, hl]
      simp
    rw [← this]
    exact List.mem_map_of_mem _ hs

/-- Concrete Live session for the key (7, A, d1), used to instantiate the
registration theorem. -/
def demoSessA : Session :=
  { sid := 0, room := 7, user := "A", device := "d1",
    state := SessionState.Live }

/-- Concrete registry holding only demoSessA. -/
def demoReg : Registry := { sessions := [demoSessA], nextSid := 1 }

/-- Witness for C3: registering a second session for (7, A, d1) leaves
exactly one Live session for the key and the prior session Closed. -/
theorem register_one_live_witness :
    liveKeyCount (register demoReg 7 "A" "d1") 7 "A" "d1" = 1 ∧
    { demoSessA with state := SessionState.Closed }
      ∈ (register demoReg 7 "A" "d1").sessions := by
  have h := register_one_live demoReg 7 "A" "d1"
  refine ⟨h.1, ?_⟩
  exact h.2 demoSessA (by simp [demoReg]) (by decide) rfl

/-- C6: a typing signal with no follow-up for longer than the 2-second
inactivity window is expired by the sweep, so the next typing_status event
omits that user without further client input; on the client, each non-empty
input change emits typing true and schedules typing false 2000 ms later,
discarding any previously pending timer, and an empty change emits typing
false at once. -/
theorem typing_expiry (entries : List TypingEntry) (u : String) (t now : Nat)
    (hu : ∀ e ∈ entries, e.user = u → e.lastUpdate = t)
    (hlate : t + typingWindowMs < now) :
    u ∉ (sweepTyping entries now).map TypingEntry.user ∧
    (∀ pending v n, 0 < v.length → handleChange pending v n =
      { emitTyping := true, stopScheduledAt := some (n + 2000) }) ∧
    (∀ pending n, handleChange pending "" n =
      { emitTyping := false, stopScheduledAt := none }) := by
  refine ⟨?_, ?_, ?_⟩
  · intro hmem
    rw [List.mem_map] at hmem
    obtain ⟨e, he, heu⟩ := hmem
    unfold sweepTyping at he
    rw [List.mem_filter] at he
    obtain ⟨he1, he2⟩ := he
    have ht := hu e he1 heu
    rw [ht] at he2
    simp only [decide_eq_true_eq] at he2
    unfold typingWindowMs at he2 hlate
    omega
  · intro pending v n hv
    simp [handleChange, hv]
  · intro pending n
    simp [handleChange]

/-- Witness for C6: the sole typer B, last seen at 1000 ms, is dropped by a
sweep at 4000 ms, and a non-empty change at 500 ms emits typing true with the
stop scheduled at 2500 ms. -/
theorem typing_expiry_witness :
    "B" ∉ (sweepTyping [{ user := "B", lastUpdate := 1000 }] 4000).map
        TypingEntry.user ∧
    handleChange none "hi" 500 =
      { emitTyping := true, stopScheduledAt := some 2500 } := by
  have h := typing_expiry [{ user := "B", lastUpdate := 1000 }] "B" 1000 4000
    (by intro e he _; simp at he; rw [he]) (by decide)
  exact ⟨h.1, h.2.1 none "hi" 500 (by decide)⟩

/-- C7: the typer list a session displays excludes the own user id of that
session, so the originating user never sees themself listed as typing, while
the displayed list keeps every other delivered typer; and the fan-out hands
every Live session of the room the full current typer set unchanged. -/
theorem typing_status_echo (l : List String) (u : String) :
    u ∉ displayedTypers l u ∧
    (∀ x ∈ l, x ≠ u → x ∈ displayedTypers l u) ∧
    (∀ sessions room p, p ∈ broadcastTypingStatus sessions room l →
      p.2 = l) := by
  refine ⟨?_, ?_, ?_⟩
  · intro hmem
    unfold displayedTypers at hmem
    rw [List.mem_filter] at hmem
    simp at hmem
  · intro x hx hne
    unfold displayedTypers
    rw [List.mem_filter]
    exact ⟨hx, by simpa using hne⟩
  · intro sessions room p hp
    unfold broadcastTypingStatus at hp
    rw [List.mem_map] at hp
    obtain ⟨s, _, hs⟩ := hp
    rw [← hs]

/-- Concrete Live session of user B in room 7, used to instantiate the echo
suppression theorem. -/
def demoSessB : Session :=
  { sid := 1, room := 7, user := "B", device := "d2",
    state := SessionState.Live }

/-- Witness for C7: with typers A and B delivered to the session of user A,
the displayed list omits A and keeps B, and the fan-out payload to the Live
session of user B is the full list. -/
theorem typing_status_echo_witness :
    "A" ∉ displayedTypers ["A", "B"] "A" ∧
    "B" ∈ displayedTypers ["A", "B"] "A" ∧
    ((demoSessB, ["A", "B"]) : Session × List String).2 = ["A", "B"] := by
  have h := typing_status_echo ["A", "B"] "A"
  refine ⟨h.1, h.2.1 "B" (by decide) (by decide), ?_⟩
  exact h.2.2 [demoSessB] 7 (demoSessB, ["A", "B"]) (by decide)

/-- Variants of a room event: the discriminated union of the data model. -/
inductive EventVariant where
  | new_message
  | typing_status
  | reaction_added
  | reaction_removed
  | message_remembered
  | user_joined
  | user_left
  deriving DecidableEq, Repr

/-- Errors of the Delivery Coordinator boundary. Modelled from the spec
taxonomy; StoreError from the collaborator maps to PersistenceUnavailable. -/
inductive CoordError where
  | NotAMember
  | PersistenceUnavailable
  deriving DecidableEq, Repr

/-- A publish request handed to the Room Event Bus by the Delivery
Coordinator: the variant plus an opaque payload. Modelled from the spec. -/
structure PublishRequest where
  variant : EventVariant
  payload : String
  deriving DecidableEq, Repr

/-- Outcome of one Delivery Coordinator entry point: an error or success
(none), together with the publish requests handed to the Room Event Bus for
this action. Modelled from the spec. -/
structure CoordResult where
  outcome : Option CoordError
  published : List PublishRequest
  deriving DecidableEq, Repr

/-- Modelled from the spec: handleMessage of the Delivery Coordinator
(backend code absent from the source tree) validates membership, then awaits
the persistence call-out; it publishes new_message with the stored canonical
id only when the store succeeded, and maps a store failure to
PersistenceUnavailable with nothing published. -/
def handleMessage (isMember : Bool) (store : Except Unit String) :
    CoordResult :=
  if !isMember then { outcome := some CoordError.NotAMember, published := [] }
  else
    match store with
    | Except.error _ =>
        { outcome := some CoordError.PersistenceUnavailable, published := [] }
    | Except.ok storedId =>
        { outcome := none,
          published := [{ variant := EventVariant.new_message,
                          payload := storedId }] }

/-- Modelled from the spec: handleReaction delegates the add or remove to the
persistence collaborator and publishes reaction_added or reaction_removed
with the recomputed full reaction map it returned; a store failure maps to
PersistenceUnavailable with nothing published. -/
def handleReaction (isAdd : Bool) (store : Except Unit String) : CoordResult :=
  match store with
  | Except.error _ =>
      { outcome := some CoordError.PersistenceUnavailable, published := [] }
  | Except.ok fullMap =>
      { outcome := none,
        published := [{ variant := if isAdd then EventVariant.reaction_added
                          else EventVariant.reaction_removed,
                        payload := fullMap }] }

/-- Modelled from the spec: handleRemember delegates the flag update to
persistence and publishes message_remembered on success; a store failure maps
to PersistenceUnavailable with nothing published. -/
def handleRemember (messageId : String) (store : Except Unit Unit) :
    CoordResult :=
  match store with
  | Except.error _ =>
      { outcome := some CoordError.PersistenceUnavailable, published := [] }
  | Except.ok _ =>
      { outcome := none,
        published := [{ variant := EventVariant.message_remembered,
                        payload := messageId }] }

/-- C1: for every inbound action of the Delivery Coordinator, a failed
persistence call-out means nothing is published to the Room Event Bus for
that action and the action fails with PersistenceUnavailable (for
handleMessage, once the member check passed; for a non-member nothing is
published either). -/
theorem persist_before_notify :
    (∀ member u, (handleMessage member (Except.error u)).published = [] ∧
      (member = true → handleMessage member (Except.error u) =
        { outcome := some CoordError.PersistenceUnavailable,
          published := [] })) ∧
    (∀ isAdd u, handleReaction isAdd (Except.error u) =
      { outcome := some CoordError.PersistenceUnavailable,
        published := [] }) ∧
    (∀ mid u, handleRemember mid (Except.error u) =
      { outcome := some CoordError.PersistenceUnavailable,
        published := [] }) := by
  refine ⟨?_, ?_, ?_⟩
  · intro member u
    cases member <;> simp [handleMessage]
  · intro isAdd u
    rfl
  · intro mid u
    rfl

/-- Witness for C1: with the store failing, a message from a member, a
reaction add, and a remember all fail with PersistenceUnavailable and publish
nothing. -/
theorem persist_before_notify_witness :
    handleMessage true (Except.error ()) =
      { outcome := some CoordError.PersistenceUnavailable, published := [] } ∧
    handleReaction true (Except.error ()) =
      { outcome := some CoordError.PersistenceUnavailable, published := [] } ∧
    handleRemember "m1" (Except.error ()) =
      { outcome := some CoordError.PersistenceUnavailable, published := [] } := by
  have h := persist_before_notify
  exact ⟨(h.1 true ()).2 rfl, h.2.1 true (), h.2.2 "m1" ()⟩

/-- An event as the Room Event Bus constructs it: room, Bus-assigned sequence
number, variant, payload and origin user. Modelled from the spec data
model. -/
structure Event where
  room : Nat
  seq : Nat
  variant : EventVariant
  payload : String
  origin : String
  deriving DecidableEq, Repr

/-- One input to publish: the variant, payload and origin user of one
fact to deliver; the Bus, never the producer, assigns the sequence number.
Modelled from the spec. -/
structure PubInput where
  variant : EventVariant
  payload : String
  origin : String
  deriving DecidableEq, Repr

/-- One outbound session queue of the room served by a bus instance, with the
liveness flag the Session Registry reports at fan-out time. Modelled from the
spec. -/
structure SessionQueue where
  live : Bool
  queue : List Event
  deriving DecidableEq, Repr

/-- Per-room state of the Room Event Bus: the monotonic per-room sequence
counter and the outbound queues of the sessions of the room. Publish is
serialized per room, so a list of PubInput values is the general shape of a
room publish history. Modelled from the spec. -/
structure RoomBus where
  room : Nat
  counter : Nat
  sessions : List SessionQueue
  deriving DecidableEq, Repr

/-- Fan-out step of publish: a Live session has the event appended to its
outbound queue; a non-Live session is skipped. Modelled from the spec. -/
def enqueueLive (e : Event) (s : SessionQueue) : SessionQueue :=
  if s.live then { s with queue := s.queue ++ [e] } else s

/-- Modelled from the spec: publish assigns the next sequence number for the
room (the Bus is the sole assigner), constructs the Event, and enqueues it on
the outbound queue of every currently Live session of the room. -/
def publish (b : RoomBus) (x : PubInput) : RoomBus :=
  { b with
    counter := b.counter + 1,
    sessions := b.sessions.map (enqueueLive
      { room := b.room, seq := b.counter + 1, variant := x.variant,
        payload := x.payload, origin := x.origin }) }

/-- A serialized sequence of publishes to one room, in order. -/
def publishAll (b : RoomBus) (xs : List PubInput) : RoomBus :=
  match xs with
  | [] => b
  | x :: rest => publishAll (publish b x) rest

/-- The events the Bus constructs for a serialized list of publishes starting
from a given counter value, carrying their assigned sequence numbers. -/
def assignedEvents (room : Nat) (c : Nat) (xs : List PubInput) : List Event :=
  match xs with
  | [] => []
  | x :: rest =>
      { room := room, seq := c + 1, variant := x.variant,
        payload := x.payload, origin := x.origin }
        :: assignedEvents room (c + 1) rest

/-- The liveness flag survives the fan-out step untouched. -/
theorem enqueueLive_live (e : Event) (s : SessionQueue) :
    (enqueueLive e s).live = s.live := by
  unfold enqueueLive
  split <;> rfl

/-- A Live session receives exactly the published event at the tail of its
queue. -/
theorem enqueueLive_queue (e : Event) (s : SessionQueue)
    (h : s.live = true) : (enqueueLive e s).queue = s.queue ++ [e] := by
  simp [enqueueLive, h]

/-- The sequence numbers the Bus assigns from counter c to a list of
publishes are exactly the consecutive naturals starting at c + 1. -/
theorem assignedEvents_seqs (room : Nat) (xs : List PubInput) :
    ∀ c, (assignedEvents room c xs).map Event.seq =
      List.range' (c + 1) xs.length := by
  induction xs with
  | nil => intro c; rfl
  | cons x rest ih =>
      intro c
      rw [List.length_cons, List.range'_succ]
      simp only [assignedEvents, List.map_cons]
      rw [ih (c + 1)]

/-- Effect of a serialized publish run on the bus: the counter advances by
the number of publishes, the session population is unchanged, liveness flags
are unchanged, and every session Live at the start has exactly the assigned
events appended to its queue in assignment order. -/
theorem publishAll_effect (xs : List PubInput) :
    ∀ b : RoomBus,
      (publishAll b xs).counter = b.counter + xs.length ∧
      (publishAll b xs).sessions.length = b.sessions.length ∧
      ∀ i (h : i < b.sessions.length)
          (h2 : i < (publishAll b xs).sessions.length),
        ((publishAll b xs).sessions.get ⟨i, h2⟩).live =
          (b.sessions.get ⟨i, h⟩).live ∧
        ((b.sessions.get ⟨i, h⟩).live = true →
          ((publishAll b xs).sessions.get ⟨i, h2⟩).queue =
            (b.sessions.get ⟨i, h⟩).queue ++
              assignedEvents b.room b.counter xs) := by
  induction xs with
  | nil =>
      intro b
      refine ⟨by simp [publishAll], by simp [publishAll], ?_⟩
      intro i h h2
      exact ⟨rfl, fun _ => by simp [publishAll, assignedEvents]⟩
  | cons x rest ih =>
      intro b
      have hstep : publishAll b (x :: rest) = publishAll (publish b x) rest :=
        rfl
      obtain ⟨ihc, ihl, ihq⟩ := ih (publish b x)
      have hplen : (publish b x).sessions.length = b.sessions.length := by
        simp [publish]
      have hroom : (publish b x).room = b.room := rfl
      have hcnt : (publish b x).counter = b.counter + 1 := rfl
      refine ⟨?_, ?_, ?_⟩
      · rw [hstep, ihc, hcnt, List.length_cons]
        omega
      · rw [hstep, ihl, hplen]
      · intro i h h2
        have hp : i < (publish b x).sessions.length := by omega
        have hget : (publish b x).sessions.get ⟨i, hp⟩ =
            enqueueLive
              { room := b.room, seq := b.counter + 1, variant := x.variant,
                payload := x.payload, origin := x.origin }
              (b.sessions.get ⟨i, h⟩) := by
          simp [publish, List.get_eq_getElem, List.getElem_map]
        have h2r : i < (publishAll (publish b x) rest).sessions.length := by
          rw [ihl]; omega
        obtain ⟨ihlive, ihqueue⟩ := ihq i hp h2r
        constructor
        · have : ((publishAll b (x :: rest)).sessions.get ⟨i, h2⟩).live =
              ((publishAll (publish b x) rest).sessions.get ⟨i, h2r⟩).live :=
            rfl
          rw [this, ihlive, hget, enqueueLive_live]
        · intro hlive
          have hq0 : ((publishAll b (x :: rest)).sessions.get ⟨i, h2⟩).queue =
              ((publishAll (publish b x) rest).sessions.get ⟨i, h2r⟩).queue :=
            rfl
          have hlive2 : ((publish b x).sessions.get ⟨i, hp⟩).live = true := by
            rw [hget, enqueueLive_live]; exact hlive
          rw [hq0, ihqueue hlive2, hget, enqueueLive_queue _ _ hlive, hroom,
            hcnt]
          rw [List.append_assoc]
          rfl

/-- C2: the sequence numbers the Bus assigns to the publishes of one room are
strictly increasing and gapless (exactly the consecutive naturals after the
starting counter), and every session that stays Live observes exactly those
events, appended to its queue in assignment order with no gaps. -/
theorem bus_ordering (b : RoomBus) (xs : List PubInput) :
    (assignedEvents b.room b.counter xs).map Event.seq =
      List.range' (b.counter + 1) xs.length ∧
    List.Pairwise (· < ·) ((assignedEvents b.room b.counter xs).map Event.seq) ∧
    (publishAll b xs).counter = b.counter + xs.length ∧
    (∀ i (h : i < b.sessions.length)
        (h2 : i < (publishAll b xs).sessions.length),
      (b.sessions.get ⟨i, h⟩).live = true →
        ((publishAll b xs).sessions.get ⟨i, h2⟩).queue =
          (b.sessions.get ⟨i, h⟩).queue ++
            assignedEvents b.room b.counter xs) := by
  obtain ⟨hc, _, hq⟩ := publishAll_effect xs b
  refine ⟨assignedEvents_seqs b.room xs b.counter, ?_, hc, ?_⟩
  · rw [assignedEvents_seqs b.room xs b.counter]
    exact List.pairwise_lt_range' _ _
  · intro i h h2 hlive
    exact (hq i h h2).2 hlive

/-- Concrete one-live-session bus on room 7 used to instantiate the ordering
theorem. -/
def demoBus : RoomBus :=
  { room := 7, counter := 0,
    sessions := [{ live := true, queue := [] },
                 { live := false, queue := [] }] }

/-- Two concrete publishes to room 7. -/
def demoPubs : List PubInput :=
  [{ variant := EventVariant.new_message, payload := "m1", origin := "A" },
   { variant := EventVariant.typing_status, payload := "B", origin := "B" }]

/-- Witness for C2: the two publishes get sequence numbers 1 and 2, the
counter ends at 2, and the Live session queue holds exactly the two events in
order. -/
theorem bus_ordering_witness :
    (assignedEvents demoBus.room demoBus.counter demoPubs).map Event.seq
        = [1, 2] ∧
    (publishAll demoBus demoPubs).counter = 2 ∧
    ((publishAll demoBus demoPubs).sessions.get ⟨0, by decide⟩).queue =
      [{ room := 7, seq := 1, variant := EventVariant.new_message,
         payload := "m1", origin := "A" },
       { room := 7, seq := 2, variant := EventVariant.typing_status,
         payload := "B", origin := "B" }] := by
  have h := bus_ordering demoBus demoPubs
  refine ⟨?_, h.2.2.1, ?_⟩
  · rw [h.1]
    rfl
  · have hq := h.2.2.2 0 (by decide) (by decide) rfl
    rw [hq]
    rfl

end CoupleChat
